import Mathlib

/-!
Verification of the request/round coordination layer of `mwixnet`
(`src/servers/swap_rpc.rs`): the JSON-RPC `swap` endpoint, the
domain-error-to-protocol-error mapping, the HTTP path middleware, the
round-scheduler loop, and the mutual-exclusion discipline around the
shared swap engine.

Pure functions of the Rust source are embedded as Lean functions; the
scheduler loop is embedded as a step function over an explicit state; the
mutex discipline is embedded as an event-trace model whose validity
relation is the semantics of `std::sync::Mutex`.
-/

namespace SwapRpc

/-! Section: JSON-RPC error model (`jsonrpc_core::Error`, `jsonrpc_core::ErrorCode`) -/

/-- Numeric code of `jsonrpc_core::ErrorCode::InternalError`. -/
def internalErrorCode : Int := -32603

/-- Numeric code of `jsonrpc_core::ErrorCode::InvalidParams`. -/
def invalidParamsCode : Int := -32602

/-- Embeds `jsonrpc_core::Error` (the `code` and `message` fields used by
this layer; the `data` field is always `None` in the source). -/
structure RpcError where
  code : Int
  message : String
  deriving Repr, DecidableEq

/-- Embeds `jsonrpc_core::Error::invalid_params(msg)`: an error with code
`-32602` and the given message. -/
def invalidParams (msg : String) : RpcError :=
  { code := invalidParamsCode, message := msg }

/-- JSON-RPC result values produced by this layer (only
`Value::String` is ever returned by the `swap` method). -/
inductive RpcValue where
  | str (s : String)
  deriving Repr, DecidableEq

/-! Section: Domain errors (`SwapError`)

Modelled from the spec: `SwapError` is declared in
`src/servers/swap.rs`, which is not part of the provided sources; the
spec describes it as a closed set of variants with at minimum
`CoinNotFound { commitment }`, other structural/validation failures,
and `UnknownError(detail)`, with the message for `CoinNotFound` being
"Output {commitment} does not exist, or is already spent." -/

/-- Modelled from the spec: the domain error taxonomy returned by the
engine (`SwapError` in `src/servers/swap.rs`, absent from the provided
sources). `validationError` stands for the family of
structural/validation variants other than `coinNotFound`. -/
inductive SwapError where
  | coinNotFound (commit : String)
  | validationError (desc : String)
  | unknownError (detail : String)
  deriving Repr, DecidableEq

/-- Modelled from the spec: the human-readable description
(`Display`/`to_string`) of each `SwapError` variant, per the spec's
error-mapping table. -/
def SwapError.describe : SwapError → String
  | .coinNotFound c => "Output " ++ c ++ " does not exist, or is already spent."
  | .validationError d => d
  | .unknownError d => d

/-- Embeds `impl From<SwapError> for Error` (swap_rpc.rs lines 59-70):
`UnknownError` maps to an internal error carrying the error's
description; every other variant maps to `Error::invalid_params` with
the error's description. -/
def RpcError.fromSwapError (e : SwapError) : RpcError :=
  match e with
  | .unknownError _ => { message := e.describe, code := internalErrorCode }
  | _ => invalidParams e.describe

/-! Section: The `swap` RPC method -/

/-- Embeds `SwapReq` (swap_rpc.rs lines 20-25). Both fields are opaque
binary payloads to this layer; they are carried as strings. -/
structure SwapReq where
  onion : String
  comsig : String
  deriving Repr, DecidableEq

/-- Embeds `SwapAPI::swap for RPCSwapServer` (swap_rpc.rs lines 72-80):
call the engine's `swap` under the mutex; on `Err(e)` the `?` operator
propagates `e` converted through `From<SwapError> for Error`; on `Ok`
return `Value::String("success")`. The engine is passed as an opaque
function, as the spec specifies it. -/
def handleSwap (engine : SwapReq → Except SwapError Unit) (req : SwapReq) :
    Except RpcError RpcValue :=
  match engine req with
  | .error e => .error (RpcError.fromSwapError e)
  | .ok () => .ok (RpcValue.str "success")

/-- Wire-level params of a `swap` request before deserialization: each
field of `SwapReq` either present (with its opaque payload) or absent. -/
structure RawParams where
  onion : Option String
  comsig : Option String
  deriving Repr, DecidableEq

/-- Embeds the derived deserializer of `SwapReq` (serde derive on
swap_rpc.rs lines 20-25): fields are required with no defaults, and a
missing field fails with serde's message naming the first missing field
in declaration order, as exercised by the repository test
`swap_bad_request` (swap_rpc.rs line 241). -/
def parseSwapReq (p : RawParams) : Except String SwapReq :=
  match p.onion with
  | none => .error "missing field `onion`"
  | some o =>
    match p.comsig with
    | none => .error "missing field `comsig`"
    | some c => .ok { onion := o, comsig := c }

/-- Embeds the JSON-RPC dispatch of the `swap` method (the
`jsonrpc_derive` glue around `SwapAPI`, swap_rpc.rs lines 27-31): a
deserialization failure is returned as `Error::invalid_params` with
message "Invalid params: {err}." and the method body is never entered;
otherwise the method body runs. The second component records whether
the engine was invoked. -/
def dispatchSwap (engine : SwapReq → Except SwapError Unit) (p : RawParams) :
    Except RpcError RpcValue × Bool :=
  match parseSwapReq p with
  | .error m => (.error (invalidParams ("Invalid params: " ++ m ++ ".")), false)
  | .ok req => (handleSwap engine req, true)

/-! Section: HTTP path middleware -/

/-- Outcome of the request middleware: pass the request on to the
JSON-RPC dispatcher, or answer immediately with an HTTP status and body. -/
inductive MiddlewareOut where
  | pass
  | respond (status : Nat) (body : String)
  deriving Repr, DecidableEq

/-- Embeds the `request_middleware` closure of `RPCSwapServer::start_http`
(swap_rpc.rs lines 47-53): a request whose URI equals "/v1" is passed
through; any other request is answered with
`Response::bad_request("Only v1 supported")`, whose HTTP status is 400. -/
def requestMiddleware (uri : String) : MiddlewareOut :=
  if uri = "/v1" then .pass else .respond 400 "Only v1 supported"

/-! Section: Rust remainder semantics for the counter update -/

/-- Embeds the Rust expression `(secs + 1) % interval_s` (swap_rpc.rs
line 117) with Rust's integer-remainder semantics: remainder by zero
panics (`none`); otherwise the Euclidean remainder is returned. -/
def counterUpdate (secs interval_s : Nat) : Option Nat :=
  if interval_s = 0 then none else some ((secs + 1) % interval_s)

/-! Section: The round-scheduler loop

The background thread spawned in `listen` (swap_rpc.rs lines 108-123)
runs: `secs = 0; loop { if stopped { close_handle.close(); break; }
sleep(1s); secs = (secs + 1) % interval_s; if secs == 0 { let _ =
engine.execute_round(); } }`. It is embedded as a step function over an
explicit state, driven by the per-tick value of the stop signal and an
oracle giving each tick's `execute_round` result. -/

/-- State of the round-scheduler loop: the `secs` counter, whether the
loop has exited (which happens exactly when `close_handle.close()` has
been called, closing the transport listener), and how many times
`execute_round` has been invoked so far. -/
structure SchedState where
  secs : Nat
  closed : Bool
  rounds : Nat
  deriving Repr, DecidableEq

/-- Embeds one iteration of the scheduler loop (swap_rpc.rs lines
110-122): first check the stop signal, and if set close the listener
and exit; otherwise advance `secs` modulo `interval_s` and, exactly
when it wraps to zero, invoke `execute_round`, whose result
`roundRes` is bound to `_` and discarded. (For `interval_s = 0` the
Rust `%` panics; that case is treated separately via `counterUpdate`,
and iterations here are considered for `interval_s ≥ 1`, where Lean's
`%` agrees with Rust's.) -/
def schedStep (interval_s : Nat) (stopSet : Bool) (roundRes : Except String Unit)
    (s : SchedState) : SchedState :=
  if s.closed then s
  else if stopSet then { s with closed := true }
  else
    let m := (s.secs + 1) % interval_s
    if m = 0 then { secs := m, closed := false, rounds := s.rounds + 1 }
    else { secs := m, closed := false, rounds := s.rounds }

/-- Runs the scheduler for `n` ticks from the initial state
`secs = 0` (swap_rpc.rs line 109), where `stop k` is the value of
`stop_state.is_stopped()` observed at iteration `k` and `res k` the
result `execute_round` would return at iteration `k`. -/
def schedRun (interval_s : Nat) (stop : Nat → Bool) (res : Nat → Except String Unit) :
    Nat → SchedState
  | 0 => { secs := 0, closed := false, rounds := 0 }
  | n + 1 => schedStep interval_s (stop n) (res n) (schedRun interval_s stop res n)

/-- Embeds one iteration of the scheduler loop together with the log
messages the iteration emits. The loop body (swap_rpc.rs lines
110-122) contains no logging call on any path: in particular the round
site at line 120 is `let _ = server.lock().unwrap().execute_round();`,
which binds the `Result` to `_` and discards it without recording it,
so the emitted message list is empty on every path. -/
def schedStepLogged (interval_s : Nat) (stopSet : Bool) (roundRes : Except String Unit)
    (s : SchedState) : SchedState × List String :=
  if s.closed then (s, [])
  else if stopSet then ({ s with closed := true }, [])
  else
    let m := (s.secs + 1) % interval_s
    if m = 0 then ({ secs := m, closed := false, rounds := s.rounds + 1 }, [])
    else ({ secs := m, closed := false, rounds := s.rounds }, [])

/-! Section: The mutual-exclusion gate

Both call sites on the shared engine — the RPC handler's
`self.server.lock().unwrap().swap(...)` (swap_rpc.rs lines 74-77) and
the scheduler's `server.lock().unwrap().execute_round()` (line 120) —
go through the single `Arc<Mutex<dyn SwapServer>>` created at line 98.
The discipline is embedded as event traces: each operation acquires
the mutex, performs its engine call (a start and an end event), and
releases the mutex when the guard is dropped. Trace validity is the
semantics of the mutex: acquisition succeeds only when the lock is
free, and only the holder may touch the engine or release. -/

/-- Thread (operation) identifier. -/
abbrev Tid := Nat

/-- The two engine operations dispatched by this layer. -/
inductive EngineOp where
  | swapOp
  | roundOp
  deriving Repr, DecidableEq

/-- Events of the lock-discipline trace model. -/
inductive Event where
  | acq (t : Tid)
  | callStart (t : Tid) (o : EngineOp)
  | callEnd (t : Tid) (o : EngineOp)
  | rel (t : Tid)
  deriving Repr, DecidableEq

/-- Replays a trace against the mutex semantics from a given lock state
(`none` = free, `some t` = held by `t`). Returns `none` when the trace
violates the discipline (acquiring a held lock, or touching the engine
or releasing without holding the lock); otherwise returns the final
lock state. -/
def replay : Option Tid → List Event → Option (Option Tid)
  | l, [] => some l
  | none, Event.acq t :: rest => replay (some t) rest
  | some _, Event.acq _ :: _ => none
  | some h, Event.callStart t _ :: rest => if t = h then replay (some h) rest else none
  | none, Event.callStart _ _ :: _ => none
  | some h, Event.callEnd t _ :: rest => if t = h then replay (some h) rest else none
  | none, Event.callEnd _ _ :: _ => none
  | some h, Event.rel t :: rest => if t = h then replay none rest else none
  | none, Event.rel _ :: _ => none

/-- A trace is lock-valid when it replays successfully from the free
lock: this is exactly what `std::sync::Mutex` guarantees for any real
interleaving of the threads. -/
def LockValid (ev : List Event) : Prop := (replay none ev).isSome = true

instance (ev : List Event) : Decidable (LockValid ev) := by
  unfold LockValid; infer_instance

/-- Events of one invocation of the RPC `swap` handler (swap_rpc.rs
lines 74-77): `lock().unwrap()` acquires, the engine's `swap` runs,
and the guard is dropped at the end of the statement — also when `?`
propagates an error — releasing the mutex. -/
def swapHandlerEvents (t : Tid) : List Event :=
  [Event.acq t, Event.callStart t EngineOp.swapOp,
   Event.callEnd t EngineOp.swapOp, Event.rel t]

/-- Events of one round execution in the scheduler loop (swap_rpc.rs
line 120): `lock().unwrap()` acquires, `execute_round` runs, and the
temporary guard is dropped at the end of the statement, releasing the
mutex regardless of the discarded result. -/
def roundEvents (t : Tid) : List Event :=
  [Event.acq t, Event.callStart t EngineOp.roundOp,
   Event.callEnd t EngineOp.roundOp, Event.rel t]

/-! Section: Theorems for the error mapping and the endpoint -/

/-- C2: the mapping from domain errors to protocol errors is total and
unambiguous: `UnknownError` maps to the internal-error code (-32603)
with the error's description as message; every other variant maps to
`invalid_params` (code -32602) with the variant's description; and for
`CoinNotFound{c}` the message contains the literal commitment `c` and
the classification is invalid-params. -/
theorem swap_error_mapping :
    (∀ d, RpcError.fromSwapError (SwapError.unknownError d) =
      { code := internalErrorCode, message := (SwapError.unknownError d).describe }) ∧
    (∀ c, RpcError.fromSwapError (SwapError.coinNotFound c) =
      invalidParams (SwapError.coinNotFound c).describe) ∧
    (∀ d, RpcError.fromSwapError (SwapError.validationError d) =
      invalidParams (SwapError.validationError d).describe) ∧
    (∀ c, (RpcError.fromSwapError (SwapError.coinNotFound c)).code = -32602 ∧
      ∃ a b, (RpcError.fromSwapError (SwapError.coinNotFound c)).message = a ++ c ++ b) :=
  ⟨fun _ => rfl, fun _ => rfl, fun _ => rfl,
   fun c => ⟨rfl, "Output ", " does not exist, or is already spent.", rfl⟩⟩

/-- C6: for every request for which the engine's `swap` returns
success, the endpoint returns exactly the JSON-RPC result string
"success" and no error. -/
theorem swap_success_response
    (engine : SwapReq → Except SwapError Unit) (req : SwapReq)
    (h : engine req = .ok ()) :
    handleSwap engine req = .ok (RpcValue.str "success") := by
  unfold handleSwap
  rw [h]

/-- Witness for C6 at a concrete accepting engine and request. -/
theorem swap_success_response_witness :
    handleSwap (fun _ => .ok ()) { onion := "o", comsig := "c" } =
      .ok (RpcValue.str "success") :=
  swap_success_response (fun _ => .ok ()) { onion := "o", comsig := "c" } rfl

/-- C8: for every request payload missing a required field (`onion` or
`comsig`), the endpoint returns an invalid-params error whose message
names the missing field, and the engine is never invoked. -/
theorem swap_missing_field (engine : SwapReq → Except SwapError Unit) (p : RawParams) :
    (p.onion = none →
      dispatchSwap engine p =
        (.error (invalidParams "Invalid params: missing field `onion`."), false)) ∧
    (∀ o, p.onion = some o → p.comsig = none →
      dispatchSwap engine p =
        (.error (invalidParams "Invalid params: missing field `comsig`."), false)) := by
  constructor
  · intro h
    unfold dispatchSwap parseSwapReq
    rw [h]
    rfl
  · intro o ho hc
    unfold dispatchSwap parseSwapReq
    rw [ho, hc]
    rfl

/-- Witness for C8 at concrete payloads with each field missing. -/
theorem swap_missing_field_witness :
    dispatchSwap (fun _ => .ok ()) { onion := none, comsig := some "c" } =
      (.error (invalidParams "Invalid params: missing field `onion`."), false) ∧
    dispatchSwap (fun _ => .ok ()) { onion := some "o", comsig := none } =
      (.error (invalidParams "Invalid params: missing field `comsig`."), false) :=
  ⟨(swap_missing_field (fun _ => .ok ()) { onion := none, comsig := some "c" }).1 rfl,
   (swap_missing_field (fun _ => .ok ()) { onion := some "o", comsig := none }).2 "o" rfl rfl⟩

/-- C9: every HTTP request whose URI is not the designated path "/v1"
is answered with HTTP 400 and body "Only v1 supported" before reaching
the JSON-RPC dispatcher, and requests to "/v1" are passed through. -/
theorem middleware_path_check :
    (∀ uri, uri ≠ "/v1" → requestMiddleware uri = .respond 400 "Only v1 supported") ∧
    requestMiddleware "/v1" = .pass := by
  constructor
  · intro uri h
    unfold requestMiddleware
    simp [h]
  · rfl

/-- Witness for C9 at a concrete non-"/v1" URI. -/
theorem middleware_path_check_witness :
    requestMiddleware "/v2" = .respond 400 "Only v1 supported" :=
  middleware_path_check.1 "/v2" (by decide)

/-- C10: with a configured round interval of 0, the counter update
`(secs + 1) % interval_s` is a remainder by zero and panics on the
first tick (and every tick); for every `interval_s ≥ 1` the update is
total and equals the Euclidean remainder. -/
theorem counter_update_zero_interval :
    counterUpdate 0 0 = none ∧
    (∀ s, counterUpdate s 0 = none) ∧
    (∀ s i, 1 ≤ i → counterUpdate s i = some ((s + 1) % i)) := by
  refine ⟨rfl, fun s => rfl, fun s i hi => ?_⟩
  have h : i ≠ 0 := by omega
  unfold counterUpdate
  simp [h]

/-- Witness for C10's totality clause at a concrete positive interval. -/
theorem counter_update_zero_interval_witness :
    counterUpdate 5 3 = some 0 :=
  counter_update_zero_interval.2.2 5 3 (by decide)

/-! Section: Scheduler lemmas -/

/-- Once the loop has exited, its state never changes again. -/
theorem schedStep_frozen (interval : Nat) (st : Bool) (r : Except String Unit)
    (s : SchedState) (h : s.closed = true) : schedStep interval st r s = s := by
  simp [schedStep, h]

/-- With the stop signal never set, after `n` ticks the counter holds
`n % interval_s`, the loop is still running, and `execute_round` has
been invoked `n / interval_s` times. -/
theorem schedRun_no_stop (interval : Nat) (res : Nat → Except String Unit)
    (hi : 1 ≤ interval) (n : Nat) :
    schedRun interval (fun _ => false) res n =
      { secs := n % interval, closed := false, rounds := n / interval } := by
  induction n with
  | zero => simp [schedRun]
  | succ n ih =>
    have hm : (n % interval + 1) % interval = (n + 1) % interval :=
      Nat.mod_add_mod n interval 1
    have hdvd : interval ∣ n + 1 ↔ (n + 1) % interval = 0 :=
      Nat.dvd_iff_mod_eq_zero
    have hdiv : (n + 1) / interval =
        n / interval + if (n + 1) % interval = 0 then 1 else 0 := by
      rw [Nat.succ_div]
      congr 1
      simp [hdvd]
    rw [schedRun, ih]
    by_cases h0 : (n + 1) % interval = 0
    · simp [schedStep, hm, h0, hdiv]
    · simp [schedStep, hm, h0, hdiv]

/-- When the stop signal reads true at a tick, that tick closes the
listener (or it was already closed). -/
theorem schedRun_closed_after_stop (interval t : Nat) (stop : Nat → Bool)
    (res : Nat → Except String Unit) (ht : stop t = true) :
    (schedRun interval stop res (t + 1)).closed = true := by
  rw [schedRun, ht]
  by_cases h : (schedRun interval stop res t).closed = true
  · simp [schedStep, h]
  · simp only [Bool.not_eq_true] at h
    simp [schedStep, h]

/-- A closed scheduler state is frozen for all later ticks. -/
theorem schedRun_frozen (interval m : Nat) (stop : Nat → Bool)
    (res : Nat → Except String Unit)
    (hm : (schedRun interval stop res m).closed = true) :
    ∀ n, m ≤ n → schedRun interval stop res n = schedRun interval stop res m := by
  intro n hn
  obtain ⟨k, rfl⟩ := Nat.exists_eq_add_of_le hn
  induction k with
  | zero => rfl
  | succ k ih =>
    have : m + (k + 1) = (m + k) + 1 := by omega
    rw [this, schedRun, ih (Nat.le_add_right m k)]
    exact schedStep_frozen _ _ _ _ hm

/-! Section: Theorems for the scheduler -/

/-- C4: while running (stop signal never set) with a configured
interval of at least one, the counter is advanced modulo the interval
once per tick, `execute_round` is invoked exactly at the ticks where
the counter wraps to zero (the multiples of the interval), and hence
execution occurs exactly once per `interval_s` ticks: after `n` ticks
it has run exactly `n / interval_s` times. -/
theorem scheduler_round_cadence (interval : Nat) (res : Nat → Except String Unit)
    (hi : 1 ≤ interval) :
    (∀ n, (schedRun interval (fun _ => false) res n).secs = n % interval) ∧
    (∀ n, (schedRun interval (fun _ => false) res (n + 1)).rounds =
      (schedRun interval (fun _ => false) res n).rounds +
        if (n + 1) % interval = 0 then 1 else 0) ∧
    (∀ n, (schedRun interval (fun _ => false) res n).rounds = n / interval) := by
  refine ⟨fun n => ?_, fun n => ?_, fun n => ?_⟩
  · rw [schedRun_no_stop interval res hi n]
  · rw [schedRun_no_stop interval res hi n, schedRun_no_stop interval res hi (n + 1)]
    have hdvd : interval ∣ n + 1 ↔ (n + 1) % interval = 0 :=
      Nat.dvd_iff_mod_eq_zero
    rw [Nat.succ_div]
    congr 1
    simp [hdvd]
  · rw [schedRun_no_stop interval res hi n]

/-- Witness for C4 at interval 2: after 5 ticks the counter reads 1 and
two rounds have executed. -/
theorem scheduler_round_cadence_witness :
    (schedRun 2 (fun _ => false) (fun _ => Except.ok ()) 5).secs = 1 ∧
    (schedRun 2 (fun _ => false) (fun _ => Except.ok ()) 5).rounds = 2 := by
  have h := scheduler_round_cadence 2 (fun _ => Except.ok ()) (by decide)
  exact ⟨h.1 5, h.2.2 5⟩

/-- C5: the loop body checks the stop signal first, so once the stop
signal reads true at a tick's check, that very tick closes the
transport listener and exits without executing a round, and the state
is frozen from then on — `execute_round` is never invoked again. The
latency between the signal being observed and shutdown is thus bounded
by one tick. -/
theorem scheduler_stop_shutdown (interval t : Nat) (stop : Nat → Bool)
    (res : Nat → Except String Unit) (ht : stop t = true) :
    (schedRun interval stop res (t + 1)).closed = true ∧
    (∀ n, t + 1 ≤ n →
      schedRun interval stop res n = schedRun interval stop res (t + 1)) ∧
    (schedRun interval stop res (t + 1)).rounds =
      (schedRun interval stop res t).rounds ∧
    (∀ r s, s.closed = false →
      schedStep interval true r s = { s with closed := true }) := by
  refine ⟨schedRun_closed_after_stop interval t stop res ht,
    schedRun_frozen interval (t + 1) stop res
      (schedRun_closed_after_stop interval t stop res ht),
    ?_, fun r s hs => by simp [schedStep, hs]⟩
  rw [schedRun, ht]
  by_cases h : (schedRun interval stop res t).closed = true
  · simp [schedStep, h]
  · simp only [Bool.not_eq_true] at h
    simp [schedStep, h]

/-- Witness for C5 with the stop signal asserted from the start: after
one tick the listener is closed and no round has executed. -/
theorem scheduler_stop_shutdown_witness :
    (schedRun 5 (fun _ => true) (fun _ => Except.ok ()) 1).closed = true ∧
    (schedRun 5 (fun _ => true) (fun _ => Except.ok ()) 3).rounds =
      (schedRun 5 (fun _ => true) (fun _ => Except.ok ()) 0).rounds := by
  have h := scheduler_stop_shutdown 5 0 (fun _ => true) (fun _ => Except.ok ()) rfl
  refine ⟨h.1, ?_⟩
  rw [h.2.1 3 (by decide)]
  exact h.2.2.1

/-- C7 (amended): the result of `execute_round` is bound to `_` and
discarded: the scheduler's behaviour is pointwise identical for any
two result oracles, an erroring round leaves the state exactly as a
succeeding one does, after a failed round the loop has not exited — it
continues to the next tick — and the failure is silently discarded
rather than logged: the loop body emits no log message on any path, so
the error is never observed anywhere. -/
theorem scheduler_swallows_round_errors :
    (∀ interval st e s, schedStep interval st (Except.error e) s =
      schedStep interval st (Except.ok ()) s) ∧
    (∀ interval stop res res' n,
      schedRun interval stop res n = schedRun interval stop res' n) ∧
    (∀ interval e s, s.closed = false →
      (schedStep interval false (Except.error e) s).closed = false) ∧
    (∀ interval st r s,
      schedStepLogged interval st r s = (schedStep interval st r s, [])) := by
  refine ⟨fun _ _ _ _ => rfl, fun interval stop res res' n => ?_,
    fun interval e s hs => ?_, fun interval st r s => ?_⟩
  · induction n with
    | zero => rfl
    | succ n ih =>
      rw [schedRun, schedRun, ih]
      rfl
  · simp only [schedStep, hs]
    split <;> simp_all <;> split <;> simp
  · by_cases h1 : s.closed
    · simp [schedStepLogged, schedStep, h1]
    · by_cases h2 : st
      · simp [schedStepLogged, schedStep, h1, h2]
      · by_cases h3 : (s.secs + 1) % interval = 0
        · simp [schedStepLogged, schedStep, h1, h2, h3]
        · simp [schedStepLogged, schedStep, h1, h2, h3]

/-- Witness for C7: a failing round at tick 3 (interval 3) leaves the
loop running with the same state as a succeeding one, and the
iteration logs nothing. -/
theorem scheduler_swallows_round_errors_witness :
    (schedStep 3 false (Except.error "boom")
      { secs := 2, closed := false, rounds := 0 }).closed = false ∧
    schedStepLogged 3 false (Except.error "boom")
      { secs := 2, closed := false, rounds := 0 } =
      (schedStep 3 false (Except.error "boom")
        { secs := 2, closed := false, rounds := 0 }, []) :=
  ⟨scheduler_swallows_round_errors.2.2.1 3 "boom"
    { secs := 2, closed := false, rounds := 0 } rfl,
   scheduler_swallows_round_errors.2.2.2 3 false (Except.error "boom")
    { secs := 2, closed := false, rounds := 0 }⟩

/-- C7 counterexample: the claim's conjunct that the round failure "is
observed (logged)" is false of the code: at a concrete tick where
`execute_round` fails, the iteration emits no log message and its
entire effect is identical to that of a succeeding round, so the error
value is recorded nowhere — swap_rpc.rs line 120 binds the `Result` to
`_` and discards it without logging. -/
theorem round_error_never_logged :
    (schedStepLogged 3 false (Except.error "round failed")
      { secs := 2, closed := false, rounds := 0 }).2 = [] ∧
    schedStepLogged 3 false (Except.error "round failed")
      { secs := 2, closed := false, rounds := 0 } =
    schedStepLogged 3 false (Except.ok ())
      { secs := 2, closed := false, rounds := 0 } :=
  ⟨rfl, rfl⟩

/-! Section: Lock-trace lemmas -/

/-- Replay splits over concatenation of traces. -/
theorem replay_append (xs ys : List Event) :
    ∀ l, replay l (xs ++ ys) = (replay l xs).bind (fun m => replay m ys) := by
  induction xs with
  | nil => intro l; simp [replay]
  | cons e rest ih =>
    intro l
    cases e with
    | acq t =>
      cases l with
      | none => simp [replay, ih]
      | some h => simp [replay]
    | callStart t o =>
      cases l with
      | none => simp [replay]
      | some h =>
        by_cases ht : t = h
        · simp [replay, ht, ih]
        · simp [replay, ht]
    | callEnd t o =>
      cases l with
      | none => simp [replay]
      | some h =>
        by_cases ht : t = h
        · simp [replay, ht, ih]
        · simp [replay, ht]
    | rel t =>
      cases l with
      | none => simp [replay]
      | some h =>
        by_cases ht : t = h
        · simp [replay, ht, ih]
        · simp [replay, ht]

/-- Holder persistence: a valid segment containing no release by the
holder leaves the lock with the holder. -/
theorem replay_hold : ∀ (seg : List Event) (t : Tid) (l' : Option Tid),
    replay (some t) seg = some l' → Event.rel t ∉ seg → l' = some t := by
  intro seg
  induction seg with
  | nil =>
    intro t l' h _
    simp [replay] at h
    exact h.symm
  | cons e rest ih =>
    intro t l' h hmem
    cases e with
    | acq u => simp [replay] at h
    | callStart u o =>
      by_cases hu : u = t
      · subst hu
        simp [replay] at h
        exact ih u l' h (fun hc => hmem (List.mem_cons_of_mem _ hc))
      · simp [replay, hu] at h
    | callEnd u o =>
      by_cases hu : u = t
      · subst hu
        simp [replay] at h
        exact ih u l' h (fun hc => hmem (List.mem_cons_of_mem _ hc))
      · simp [replay, hu] at h
    | rel u =>
      by_cases hu : u = t
      · subst hu
        exact absurd (List.mem_cons_self _ _) hmem
      · simp [replay, hu] at h

/-- A `callStart` event replays successfully only when the lock is held
by the calling thread. -/
theorem replay_callStart_some {a : Option Tid} {t : Tid} {o : EngineOp}
    {rest : List Event}
    (hs : (replay a (Event.callStart t o :: rest)).isSome = true) :
    a = some t ∧ (replay (some t) rest).isSome = true := by
  cases a with
  | none => simp [replay] at hs
  | some h =>
    by_cases ht : t = h
    · subst ht
      simp [replay] at hs
      exact ⟨rfl, hs⟩
    · simp [replay, ht] at hs

/-- The RPC handler's critical section acquires before its engine call
and releases the mutex when the guard is dropped: replayed alone it is
valid and leaves the lock free. -/
theorem handler_trace_releases (t : Tid) :
    replay none (swapHandlerEvents t) = some none := by
  simp [swapHandlerEvents, replay]

/-- The scheduler's round critical section acquires before its engine
call and releases the mutex when the temporary guard is dropped. -/
theorem round_trace_releases (t : Tid) :
    replay none (roundEvents t) = some none := by
  simp [roundEvents, replay]

/-! Section: Theorems for the mutual-exclusion gate -/

/-- C1: every engine operation goes through the single mutex — the RPC
handler's trace and the round trace each acquire the gate before their
engine call and release it after — and in every lock-valid trace (the
guarantee of `std::sync::Mutex`) two engine calls by different
operations never overlap: before a second operation's call can start,
the first operation has released the gate, so engine calls are totally
ordered by acquisition order. -/
theorem engine_calls_serialized :
    (∀ t, replay none (swapHandlerEvents t) = some none) ∧
    (∀ t, replay none (roundEvents t) = some none) ∧
    (∀ (pre mid post : List Event) (t1 t2 : Tid) (o1 o2 : EngineOp),
      t1 ≠ t2 →
      LockValid (pre ++ Event.callStart t1 o1 :: (mid ++ Event.callStart t2 o2 :: post)) →
      Event.rel t1 ∈ mid) := by
  refine ⟨handler_trace_releases, round_trace_releases,
    fun pre mid post t1 t2 o1 o2 hne hvalid => ?_⟩
  by_contra hrel
  unfold LockValid at hvalid
  rw [replay_append] at hvalid
  cases hpre : replay none pre with
  | none => rw [hpre] at hvalid; simp at hvalid
  | some a =>
    rw [hpre] at hvalid
    simp only [Option.some_bind] at hvalid
    obtain ⟨rfl, hrest⟩ := replay_callStart_some hvalid
    rw [replay_append] at hrest
    cases hmid : replay (some t1) mid with
    | none => rw [hmid] at hrest; simp at hrest
    | some b =>
      rw [hmid] at hrest
      simp only [Option.some_bind] at hrest
      obtain ⟨hb, _⟩ := replay_callStart_some hrest
      have hb1 : b = some t1 := replay_hold mid t1 b hmid hrel
      rw [hb1] at hb
      exact hne (Option.some.inj hb)

/-- Witness for C1: in the lock-valid trace formed by a swap handler
invocation (thread 0) followed by a round execution (thread 1), the
segment between the two call starts contains thread 0's release. -/
theorem engine_calls_serialized_witness :
    Event.rel 0 ∈ [Event.callEnd 0 EngineOp.swapOp, Event.rel 0, Event.acq 1] :=
  engine_calls_serialized.2.2 [Event.acq 0]
    [Event.callEnd 0 EngineOp.swapOp, Event.rel 0, Event.acq 1]
    [Event.callEnd 1 EngineOp.roundOp, Event.rel 1]
    0 1 EngineOp.swapOp EngineOp.roundOp (by decide) (by decide)

/-- C3: when the engine's `swap` fails, the failure propagates to the
caller as the mapped protocol error (the `?` operator), and the gate is
still released — the handler's critical section and the round's
critical section both leave the mutex free, so subsequent callers can
acquire it. The failure is an `Err` value, not a panic, so the
`std::sync::Mutex` poisoning mode is never triggered by it. -/
theorem gate_failure_released (engine : SwapReq → Except SwapError Unit)
    (req : SwapReq) (e : SwapError) (t : Tid)
    (h : engine req = .error e) :
    handleSwap engine req = .error (RpcError.fromSwapError e) ∧
    replay none (swapHandlerEvents t) = some none ∧
    replay none (roundEvents t) = some none := by
  refine ⟨?_, handler_trace_releases t, round_trace_releases t⟩
  unfold handleSwap
  rw [h]

/-- Witness for C3 at a concrete failing engine. -/
theorem gate_failure_released_witness :
    handleSwap (fun _ => .error (SwapError.unknownError "fail"))
      { onion := "o", comsig := "c" } =
      .error (RpcError.fromSwapError (SwapError.unknownError "fail")) ∧
    replay none (swapHandlerEvents 0) = some none ∧
    replay none (roundEvents 0) = some none :=
  gate_failure_released (fun _ => .error (SwapError.unknownError "fail"))
    { onion := "o", comsig := "c" } (SwapError.unknownError "fail") 0 rfl

end SwapRpc
